import Mathlib

/-!
Verification development for the navgate campus parking / shuttle core.

The definitions below are a shallow embedding of the TypeScript sources:
  * `src/data/rules.ts`        — period boundary constants,
  * `src/lib/time-utils.ts`    — `EasternTime`, `isWeekend`,
  * `src/lib/availability.ts`  — `getCurrentPeriod`, `minutesUntil`, `getLotStatus`,
  * `src/utils/transitions.ts` — `getNextTransition`,
  * `src/data/shuttle-schedules.ts` — `parseTime`, `toMinutes`,
        `getNextDeparture`, `isScheduleActive` and the static schedule data,
  * `src/utils/shuttle-api.ts` — `parseShapePoints`.

JavaScript numbers appearing in time arithmetic are integers here (`Int`);
where `NaN` can arise (failed parses) a number is modelled as `Option Int`
or `Option ℚ` with `none` standing for `NaN`, and the JavaScript comparison
semantics (`NaN` compares false, arithmetic propagates `NaN`) is made
explicit in the helper functions.
-/

namespace Navgate

/-! ## Constants from `src/data/rules.ts` -/

/-- Overnight restriction starts (3:00 AM), from `rules.ts`. -/
def OVERNIGHT_START : Int := 3 * 60

/-- Overnight restriction ends / business hours start (7:00 AM), from `rules.ts`. -/
def BUSINESS_START : Int := 7 * 60

/-- Business hours end / open hours start (4:30 PM), from `rules.ts`. -/
def OPEN_START : Int := 16 * 60 + 30

/-- Open hours end, from `rules.ts` (unused by the logic, kept for fidelity). -/
def OPEN_END : Int := 24 * 60 + 3 * 60

/-- Minutes before a transition to show yellow/orange, from `rules.ts`. -/
def TRANSITION_WINDOW : Int := 30

/-! ## `src/lib/time-utils.ts` -/

/-- The `EasternTime` record produced by `getEasternTime` in `time-utils.ts`.
The wall-clock conversion itself (an `Intl.DateTimeFormat` call) is outside
the embedding; the record is the core's input. -/
structure EasternTime where
  minutesSinceMidnight : Int
  dayOfWeek : Int
  formatted : String
deriving Repr, DecidableEq

/-- `isWeekend` from `time-utils.ts`: Sunday (0) or Saturday (6). -/
def isWeekend (dayOfWeek : Int) : Bool :=
  dayOfWeek == 0 || dayOfWeek == 6

/-! ## Types from `src/types/index.ts` -/

/-- `LotCategory` union type. -/
inductive LotCategory where
  | student
  | employee
  | restricted
deriving Repr, DecidableEq

/-- `StatusColor` union type. -/
inductive StatusColor where
  | green
  | yellow
  | orange
  | red
deriving Repr, DecidableEq

/-- `ParkingLot` record (coordinates as rationals; they play no role in the
status logic). -/
structure ParkingLot where
  id : String
  name : String
  category : LotCategory
  overnightExempt : Bool
  lat : ℚ
  lng : ℚ
  polygon : List (ℚ × ℚ)
deriving Repr, DecidableEq

/-- `LotStatus` record; `label` is one of the four `StatusLabel` strings. -/
structure LotStatus where
  color : StatusColor
  label : String
  reason : String
deriving Repr, DecidableEq

/-! ## `src/lib/availability.ts` -/

/-- The `Period` union type of `availability.ts`
(`"overnight" | "business" | "open"`). -/
inductive Period where
  | overnight
  | business
  | open_
deriving Repr, DecidableEq

/-- `getCurrentPeriod` from `availability.ts`, including its first guard
(`mins < OVERNIGHT_START || mins >= OVERNIGHT_START + 24*60`) verbatim. -/
def getCurrentPeriod (mins : Int) : Period :=
  if mins < OVERNIGHT_START ∨ mins ≥ OVERNIGHT_START + 24 * 60 then
    Period.open_
  else if OVERNIGHT_START ≤ mins ∧ mins < BUSINESS_START then
    Period.overnight
  else if BUSINESS_START ≤ mins ∧ mins < OPEN_START then
    Period.business
  else
    Period.open_

/-- `minutesUntil` from `availability.ts` (the identical copy in
`transitions.ts` is the same function): cyclic distance to the next
occurrence of `target`. -/
def minutesUntil (current target : Int) : Int :=
  if target > current then target - current
  else target + 24 * 60 - current

/-- `getLotStatus` from `availability.ts`, branch for branch.  The nested
early-return blocks of the source are flattened into equivalent
if-then-else conditions (a guarded block that falls through to the next
statement becomes a conjunction). -/
def getLotStatus (lot : ParkingLot) (et : EasternTime) : LotStatus :=
  let mins := et.minutesSinceMidnight
  let weekend := isWeekend et.dayOfWeek
  if lot.category = LotCategory.restricted then
    ⟨StatusColor.red, "Not available", "Restricted — accessible parking only"⟩
  else
    let period := getCurrentPeriod mins
    if period = Period.overnight then
      let minsUntilBusinessStart := minutesUntil mins BUSINESS_START
      if lot.overnightExempt then
        if minsUntilBusinessStart ≤ TRANSITION_WINDOW ∧
            lot.category = LotCategory.employee ∧ weekend = false then
          ⟨StatusColor.orange, "Unavailable soon",
            "Employee lot — closes at 7:00 AM (" ++
              toString minsUntilBusinessStart ++ " min)"⟩
        else
          ⟨StatusColor.green, "Available",
            "Overnight exempt — parking allowed 24/7"⟩
      else
        if minsUntilBusinessStart ≤ TRANSITION_WINDOW ∧
            (lot.category = LotCategory.student ∨ weekend = true) then
          ⟨StatusColor.yellow, "Available soon",
            "Available at 7:00 AM (" ++
              toString minsUntilBusinessStart ++ " min)"⟩
        else if minsUntilBusinessStart ≤ TRANSITION_WINDOW ∧
            lot.category = LotCategory.employee then
          ⟨StatusColor.red, "Not available",
            "Employee lot — not available until 4:30 PM"⟩
        else
          ⟨StatusColor.red, "Not available",
            "Overnight restriction (3-7 AM) — no parking"⟩
    else if weekend then
      let minsUntilOvernight := minutesUntil mins OVERNIGHT_START
      if minsUntilOvernight ≤ TRANSITION_WINDOW ∧
          lot.overnightExempt = false ∧ mins ≥ BUSINESS_START then
        ⟨StatusColor.orange, "Unavailable soon",
          "Overnight restriction at 3:00 AM (" ++
            toString minsUntilOvernight ++ " min)"⟩
      else
        ⟨StatusColor.green, "Available", "Weekend — all lots open"⟩
    else if period = Period.business then
      let minsUntilOpen := minutesUntil mins OPEN_START
      if lot.category = LotCategory.student then
        ⟨StatusColor.green, "Available",
          "Student lot — available during business hours"⟩
      else if minsUntilOpen ≤ TRANSITION_WINDOW then
        ⟨StatusColor.yellow, "Available soon",
          "Open hours start at 4:30 PM (" ++ toString minsUntilOpen ++ " min)"⟩
      else
        ⟨StatusColor.red, "Not available",
          "Employee lot — available after 4:30 PM"⟩
    else
      let minsUntilOvernight := minutesUntil mins OVERNIGHT_START
      if lot.category = LotCategory.student then
        ⟨StatusColor.green, "Available", "Student lot — always available"⟩
      else if lot.overnightExempt = false ∧
          minsUntilOvernight ≤ TRANSITION_WINDOW then
        ⟨StatusColor.orange, "Unavailable soon",
          "Overnight restriction at 3:00 AM (" ++
            toString minsUntilOvernight ++ " min)"⟩
      else
        ⟨StatusColor.green, "Available", "Open hours — all lots available"⟩

/-! ## `src/utils/transitions.ts` -/

/-- The `NextTransition` record of `transitions.ts`. -/
structure NextTransition where
  label : String
  minutesUntil : Int
deriving Repr, DecidableEq

/-- `getNextTransition` from `transitions.ts`. -/
def getNextTransition (et : EasternTime) : NextTransition :=
  let mins := et.minutesSinceMidnight
  let weekend := isWeekend et.dayOfWeek
  if OVERNIGHT_START ≤ mins ∧ mins < BUSINESS_START then
    ⟨if weekend then "All lots open" else "Business hours start",
      minutesUntil mins BUSINESS_START⟩
  else if weekend = false ∧ BUSINESS_START ≤ mins ∧ mins < OPEN_START then
    ⟨"Open hours start", minutesUntil mins OPEN_START⟩
  else
    ⟨"Overnight restriction", minutesUntil mins OVERNIGHT_START⟩

/-! ## `src/data/shuttle-schedules.ts` -/

/-- `ScheduleStop` record: a stop name and its offset in minutes after the
first-stop departure. -/
structure ScheduleStop where
  name : String
  offset : Int
deriving Repr, DecidableEq

/-- `SubSchedule` record. -/
structure SubSchedule where
  label : String
  days : String
  daysOfWeek : List Int
  stops : List ScheduleStop
  departures : List String
deriving Repr, DecidableEq

/-- The `TimeInfo` shape used by the schedule helpers (matches the
`EasternTime` fields they read). -/
structure TimeInfo where
  minutesSinceMidnight : Int
  dayOfWeek : Int
deriving Repr, DecidableEq

/-- Split a character list at every occurrence of `c` (the semantics of
JavaScript `String.prototype.split` with a one-character separator, and of
`String.splitOn`; defined on `List Char` so that it evaluates inside the
kernel). -/
def splitOnCharAux (c : Char) : List Char → List Char → List (List Char)
  | [], acc => [acc.reverse]
  | x :: xs, acc =>
    if x = c then acc.reverse :: splitOnCharAux c xs []
    else splitOnCharAux c xs (x :: acc)

/-- `s.split(c)` for a one-character separator `c`. -/
def splitOnChar (c : Char) (s : String) : List String :=
  (splitOnCharAux c s.toList []).map (fun cs => String.mk cs)

/-- Whitespace characters recognised by the trimming step. -/
def isSpaceChar (c : Char) : Bool :=
  c = ' ' ∨ c = '\t' ∨ c = '\n' ∨ c = '\r'

/-- Trim leading and trailing whitespace from a character list. -/
def trimChars (cs : List Char) : List Char :=
  ((cs.dropWhile isSpaceChar).reverse.dropWhile isSpaceChar).reverse

/-- `s.toUpperCase()` (ASCII suffices for the inputs at hand). -/
def toUpperStr (s : String) : String :=
  String.mk (s.toList.map Char.toUpper)

/-- JavaScript `parseInt(s, 10)`: skip leading whitespace, optional sign,
longest digit prefix; `NaN` (modelled as `none`) when no digit follows. -/
def jsParseInt (s : String) : Option Int :=
  let (sgn, cs) :=
    match trimChars s.toList with
    | '-' :: cs => ((-1 : Int), cs)
    | '+' :: cs => ((1 : Int), cs)
    | cs => ((1 : Int), cs)
  let ds := cs.takeWhile Char.isDigit
  if ds.isEmpty then none
  else some (sgn * Int.ofNat (ds.foldl (fun a c => a * 10 + (c.toNat - 48)) 0))

/-- The record returned by `parseTime`; a field is `none` when the
JavaScript value would be `NaN`. -/
structure ParsedTime where
  hour : Option Int
  minute : Option Int
deriving Repr, DecidableEq

/-- `parseTime` from `shuttle-schedules.ts`.  `t.split(" ")` destructures
into `time` and `meridiem`; when there is no second component, JavaScript
throws a `TypeError` on `meridiem.toUpperCase()`, modelled as
`Except.error`.  `parseInt` on a missing or non-numeric component yields
`NaN` (`none`), and `NaN` propagates through the hour adjustment exactly as
in JavaScript (`NaN !== 12` is true, `NaN + 12` is `NaN`,
`NaN === 12` is false). -/
def parseTime (t : String) : Except String ParsedTime :=
  match splitOnChar ' ' t with
  | time :: meridiem :: _ =>
    let parts := splitOnChar ':' time
    let h0 : Option Int := jsParseInt (parts.headD "")
    let m : Option Int :=
      match parts with
      | _ :: mStr :: _ => jsParseInt mStr
      | _ => none
    let isPM := toUpperStr meridiem == "PM"
    let h1 : Option Int :=
      if isPM then
        match h0 with
        | some v => if v ≠ 12 then some (v + 12) else some 12
        | none => none
      else h0
    let h2 : Option Int :=
      if isPM = false ∧ h1 = some 12 then some 0 else h1
    Except.ok ⟨h2, m⟩
  | _ => Except.error "TypeError: meridiem is undefined"

/-- `toMinutes` from `shuttle-schedules.ts`: `hour * 60 + minute`, with
`NaN` propagation. -/
def toMinutes (t : String) : Except String (Option Int) :=
  match parseTime t with
  | Except.error e => Except.error e
  | Except.ok p =>
    Except.ok (match p.hour, p.minute with
      | some h, some m => some (h * 60 + m)
      | _, _ => none)

/-- JavaScript `>` on numbers where the left side may be `NaN`: a
comparison with `NaN` is false. -/
def jsGT (a : Option Int) (b : Int) : Bool :=
  match a with
  | some x => decide (x > b)
  | none => false

/-- JavaScript `<` on two possibly-`NaN` numbers. -/
def jsLT (a b : Option Int) : Bool :=
  match a, b with
  | some x, some y => decide (x < y)
  | _, _ => false

/-- JavaScript `<=` on two possibly-`NaN` numbers. -/
def jsLE (a b : Option Int) : Bool :=
  match a, b with
  | some x, some y => decide (x ≤ y)
  | _, _ => false

/-- JavaScript `+` where either side may be `NaN`. -/
def jsAdd (a b : Option Int) : Option Int :=
  match a, b with
  | some x, some y => some (x + y)
  | _, _ => none

/-- JavaScript `-` where the left side may be `NaN`. -/
def jsSub (a : Option Int) (b : Int) : Option Int :=
  match a with
  | some x => some (x - b)
  | none => none

/-- The `for`-loop of `getNextDeparture`: scan the departure strings in
order, returning the first whose minute-of-day strictly exceeds the
current minute; an unparsable string (no meridiem) throws. -/
def findNextDeparture (current : Int) : List String → Except String (Option String)
  | [] => Except.ok none
  | d :: rest =>
    match toMinutes d with
    | Except.error e => Except.error e
    | Except.ok mv =>
      if jsGT mv current then Except.ok (some d)
      else findNextDeparture current rest

/-- `getNextDeparture` from `shuttle-schedules.ts`. -/
def getNextDeparture (schedule : SubSchedule) (now : TimeInfo) :
    Except String (Option String) :=
  findNextDeparture now.minutesSinceMidnight schedule.departures

/-- `schedule.stops[schedule.stops.length - 1]?.offset ?? 0` from
`isScheduleActive`. -/
def tailStopOffset (schedule : SubSchedule) : Int :=
  match schedule.stops.getLast? with
  | some st => st.offset
  | none => 0

/-- `isScheduleActive` from `shuttle-schedules.ts`: false when today is not
in `daysOfWeek` or `departures` is empty; otherwise the first/last
departure window test, with the overnight-wraparound case when the last
departure's minute-of-day is smaller than the first's. -/
def isScheduleActive (schedule : SubSchedule) (now : TimeInfo) :
    Except String Bool :=
  if ¬ schedule.daysOfWeek.contains now.dayOfWeek then Except.ok false
  else
    match schedule.departures with
    | [] => Except.ok false
    | d0 :: rest =>
      match toMinutes d0 with
      | Except.error e => Except.error e
      | Except.ok first =>
        match toMinutes ((d0 :: rest).getLast (by simp)) with
        | Except.error e => Except.error e
        | Except.ok last =>
          let lastStopOffset := tailStopOffset schedule
          let currentMinutes := now.minutesSinceMidnight
          if jsLT last first then
            Except.ok (jsLE first (some currentMinutes) ||
              jsLE (some currentMinutes) (jsAdd last (some lastStopOffset)))
          else
            Except.ok (jsLE (jsSub first 5) (some currentMinutes) &&
              jsLE (some currentMinutes) (jsAdd last (some lastStopOffset)))

/-- The Wellness route's "Pick-up" sub-schedule from the static data in
`shuttle-schedules.ts`. -/
def wellnessPickup : SubSchedule :=
  { label := "Pick-up"
    days := "Mon–Fri"
    daysOfWeek := [1, 2, 3, 4, 5]
    stops := [⟨"James B. Colgate Hall", 0⟩, ⟨"Frank Dining Hall", 4⟩,
      ⟨"Academic Drive", 9⟩, ⟨"Huntington Gymnasium", 13⟩]
    departures := ["11:52 AM"] }

/-! ## `src/utils/shuttle-api.ts` -/

/-- JavaScript `Number(s)` on decimal literals, the only numeric form the
encoded shape-point strings can contain: trimmed empty string is `0`, an
optional sign followed by digits with an optional single decimal point is
the written value, and anything else is `NaN` (`none`). -/
def jsNumber (s : String) : Option ℚ :=
  let t := trimChars s.toList
  if t.isEmpty then some 0
  else
    let (sgn, cs) :=
      match t with
      | '-' :: cs => ((-1 : ℚ), cs)
      | '+' :: cs => ((1 : ℚ), cs)
      | cs => ((1 : ℚ), cs)
    match splitOnCharAux '.' cs [] with
    | [intPart] =>
      if intPart ≠ [] ∧ intPart.all Char.isDigit then
        some (sgn * (intPart.foldl (fun a c => a * 10 + (c.toNat - 48)) 0 : ℕ))
      else none
    | [intPart, fracPart] =>
      if (intPart ≠ [] ∨ fracPart ≠ []) ∧ intPart.all Char.isDigit ∧
          fracPart.all Char.isDigit then
        some (sgn *
          ((intPart.foldl (fun a c => a * 10 + (c.toNat - 48)) 0 : ℕ) +
            (fracPart.foldl (fun a c => a * 10 + (c.toNat - 48)) 0 : ℕ) /
              ((10 : ℚ) ^ fracPart.length)))
      else none
    | _ => none

/-- `parseShapePoints` from `shuttle-api.ts`: split the encoded string on
`;`, drop empty segments (`filter(Boolean)`), split each pair on `,` and
convert the first two components with `Number`.  A missing component is
`undefined`, which `Number` also turns into `NaN`; both are `none` here. -/
def parseShapePoints (points : String) : List (Option ℚ × Option ℚ) :=
  ((splitOnChar ';' points).filter (fun seg => seg ≠ "")).map (fun pair =>
    let nums := (splitOnChar ',' pair).map jsNumber
    (nums.getD 0 none, nums.getD 1 none))

/-! ## Spec-side definitions used to state the claims -/

/-- Spec-side: a string is in valid 12-hour clock format (`"H:MM AM"` /
`"H:MM PM"`, hour 1–12, minutes 00–59), following the spec's description
of departure-time strings. -/
def valid12HourFormat (s : String) : Bool :=
  match splitOnChar ' ' s with
  | [time, meridiem] =>
    (meridiem == "AM" || meridiem == "PM") &&
    (match splitOnChar ':' time with
     | [h, mm] =>
       decide (h.toList.length ≥ 1) && h.toList.all Char.isDigit &&
       decide (1 ≤ h.toList.foldl (fun a c => a * 10 + (c.toNat - 48)) 0) &&
       decide (h.toList.foldl (fun a c => a * 10 + (c.toNat - 48)) 0 ≤ 12) &&
       decide (mm.toList.length = 2) && mm.toList.all Char.isDigit &&
       decide (mm.toList.foldl (fun a c => a * 10 + (c.toNat - 48)) 0 ≤ 59)
     | _ => false)
  | _ => false

/-- Spec-side: the cyclic distance to the nearest upcoming boundary among
the three period boundaries, following the spec's description of
`nextTransition` ("the nearest upcoming boundary" of
`[overnightStart, businessStart, openStart]` under the cyclic distance). -/
def nearestBoundaryDistance (m : Int) : Int :=
  min (minutesUntil m OVERNIGHT_START)
    (min (minutesUntil m BUSINESS_START) (minutesUntil m OPEN_START))

/-- Spec-side: the color-to-label pairing implied by the `StatusLabel`
union type of `types/index.ts`. -/
def labelFor : StatusColor → String
  | StatusColor.green => "Available"
  | StatusColor.yellow => "Available soon"
  | StatusColor.orange => "Unavailable soon"
  | StatusColor.red => "Not available"

/-! ## Concrete lots used in the scenario claims -/

/-- An employee, non-overnight-exempt lot (e.g. `visual-arts` in
`data/lots.ts`). -/
def employeeLot : ParkingLot :=
  ⟨"emp", "Employee Lot", LotCategory.employee, false, 0, 0, []⟩

/-- An employee, overnight-exempt lot. -/
def employeeExemptLot : ParkingLot :=
  ⟨"empx", "Employee Exempt Lot", LotCategory.employee, true, 0, 0, []⟩

/-- A restricted lot. -/
def restrictedLot : ParkingLot :=
  ⟨"res", "Restricted Lot", LotCategory.restricted, false, 0, 0, []⟩

/-! ## Claim theorems -/

/-- C1: for every minutes value in `[0,1440)`, `getCurrentPeriod` returns
exactly one of overnight/business/open following the three-interval
boundary table: overnight iff `[180,420)`, business iff `[420,990)`, open
otherwise (the wrapped interval `[990,1440) ∪ [0,180)`). -/
theorem getCurrentPeriod_boundary_table (m : Int) (h0 : 0 ≤ m) (h1 : m < 1440) :
    (getCurrentPeriod m = Period.overnight ↔
      OVERNIGHT_START ≤ m ∧ m < BUSINESS_START) ∧
    (getCurrentPeriod m = Period.business ↔
      BUSINESS_START ≤ m ∧ m < OPEN_START) ∧
    (getCurrentPeriod m = Period.open_ ↔
      (OPEN_START ≤ m ∧ m < 1440) ∨ (0 ≤ m ∧ m < OVERNIGHT_START)) := by
  unfold getCurrentPeriod OVERNIGHT_START BUSINESS_START OPEN_START
  split_ifs with hA hB hC <;>
    refine ⟨?_, ?_, ?_⟩ <;> simp_all <;> omega

/-- Witness for C1 at `m = 200` (an overnight minute). -/
theorem getCurrentPeriod_boundary_table_witness :
    ((0:Int) ≤ 200 ∧ (200:Int) < 1440) ∧
    (getCurrentPeriod 200 = Period.overnight ↔
      OVERNIGHT_START ≤ (200:Int) ∧ (200:Int) < BUSINESS_START) :=
  ⟨⟨by decide, by decide⟩,
    (getCurrentPeriod_boundary_table 200 (by decide) (by decide)).1⟩

/-- C2: for every minutes value in `[0,1440)` and day of week in `[0,6]`,
a restricted lot always gets status color red from `getLotStatus`,
regardless of period, weekend, or exemption. -/
theorem getLotStatus_restricted_red (lot : ParkingLot) (et : EasternTime)
    (h0 : 0 ≤ et.minutesSinceMidnight) (h1 : et.minutesSinceMidnight < 1440)
    (h2 : 0 ≤ et.dayOfWeek) (h3 : et.dayOfWeek ≤ 6)
    (hc : lot.category = LotCategory.restricted) :
    (getLotStatus lot et).color = StatusColor.red := by
  simp [getLotStatus, hc]

/-- Witness for C2: the restricted lot at 10:00 AM on a Monday. -/
theorem getLotStatus_restricted_red_witness :
    ((0:Int) ≤ 600 ∧ (600:Int) < 1440 ∧ (0:Int) ≤ 1 ∧ (1:Int) ≤ 6 ∧
      restrictedLot.category = LotCategory.restricted) ∧
    (getLotStatus restrictedLot ⟨600, 1, ""⟩).color = StatusColor.red :=
  ⟨⟨by decide, by decide, by decide, by decide, rfl⟩,
    getLotStatus_restricted_red restrictedLot ⟨600, 1, ""⟩
      (by decide) (by decide) (by decide) (by decide) rfl⟩

/-- C3 counterexample: on Monday at `minutesSinceMidnight = 125` (02:05),
the employee non-exempt lot is NOT red — 125 lies before `overnightStart`,
so the code classifies it as the open period and returns green. -/
theorem scenarioA_counterexample :
    (getLotStatus employeeLot ⟨125, 1, ""⟩).color ≠ StatusColor.red := by
  decide

/-- C3 amended: on a weekday at `minutesSinceMidnight = 125` (02:05), the
employee non-exempt lot gets green "Available" with the open-hours reason:
125 is in the open period (`[990,1440) ∪ [0,180)`), and
`minutesUntilOvernightStart = 55 > 30`. -/
theorem scenarioA_amended (d : Int) (hd1 : 1 ≤ d) (hd2 : d ≤ 5) :
    getLotStatus employeeLot ⟨125, d, ""⟩ =
      ⟨StatusColor.green, "Available", "Open hours — all lots available"⟩ := by
  have hw : isWeekend d = false := by
    simp only [isWeekend, Bool.or_eq_false_iff, beq_eq_false_iff_ne, ne_eq]
    omega
  simp [getLotStatus, employeeLot, hw, getCurrentPeriod, minutesUntil,
    OVERNIGHT_START, BUSINESS_START, OPEN_START, TRANSITION_WINDOW]

/-- Witness for the amended C3, on Monday. -/
theorem scenarioA_amended_witness :
    ((1:Int) ≤ 1 ∧ (1:Int) ≤ 5) ∧
    getLotStatus employeeLot ⟨125, 1, ""⟩ =
      ⟨StatusColor.green, "Available", "Open hours — all lots available"⟩ :=
  ⟨⟨by decide, by decide⟩, scenarioA_amended 1 (by decide) (by decide)⟩

/-- C4 counterexample: the employee overnight-exempt lot on a Wednesday at
`businessStart - 1 = 419` is NOT green (it is orange: within the 30-minute
transition window an exempt employee lot shows "Unavailable soon"). -/
theorem exempt_transition_counterexample :
    (getLotStatus employeeExemptLot ⟨419, 3, ""⟩).color ≠ StatusColor.green := by
  decide

/-- C4 amended: for an employee, overnight-exempt lot on a weekday, the
status at `businessStart - 1` (419) is orange, at `businessStart - 31`
(389) green, and at `businessStart - 40` (380) green — the transition
window produces orange for `minutesUntilBusinessStart ≤ 30`, green
otherwise. -/
theorem exempt_transition_amended (d : Int) (hd1 : 1 ≤ d) (hd2 : d ≤ 5) :
    (getLotStatus employeeExemptLot ⟨419, d, ""⟩).color = StatusColor.orange ∧
    (getLotStatus employeeExemptLot ⟨389, d, ""⟩).color = StatusColor.green ∧
    (getLotStatus employeeExemptLot ⟨380, d, ""⟩).color = StatusColor.green := by
  have hw : isWeekend d = false := by
    simp only [isWeekend, Bool.or_eq_false_iff, beq_eq_false_iff_ne, ne_eq]
    omega
  refine ⟨?_, ?_, ?_⟩ <;>
    simp [getLotStatus, employeeExemptLot, hw, getCurrentPeriod, minutesUntil,
      OVERNIGHT_START, BUSINESS_START, OPEN_START, TRANSITION_WINDOW]

/-- Witness for the amended C4, on Wednesday. -/
theorem exempt_transition_amended_witness :
    ((1:Int) ≤ 3 ∧ (3:Int) ≤ 5) ∧
    ((getLotStatus employeeExemptLot ⟨419, 3, ""⟩).color = StatusColor.orange ∧
     (getLotStatus employeeExemptLot ⟨389, 3, ""⟩).color = StatusColor.green ∧
     (getLotStatus employeeExemptLot ⟨380, 3, ""⟩).color = StatusColor.green) :=
  ⟨⟨by decide, by decide⟩, exempt_transition_amended 3 (by decide) (by decide)⟩

/-- C5 counterexample: on a Sunday at `minutesSinceMidnight = 500`,
`getNextTransition` does not return the nearest upcoming boundary — it
reports the overnight boundary (1120 minutes away) although the open-start
boundary is only 490 minutes away. -/
theorem getNextTransition_counterexample :
    (getNextTransition ⟨500, 0, ""⟩).minutesUntil ≠
      nearestBoundaryDistance 500 := by
  decide

/-- C5 amended: on weekdays `getNextTransition` returns the cyclic distance
to the nearest upcoming boundary of `[overnightStart, businessStart,
openStart]`; on weekends it does so as well except for minutes in
`[businessStart, openStart)`, where it skips the open-start boundary and
reports the overnight boundary instead. -/
theorem getNextTransition_amended (et : EasternTime)
    (h0 : 0 ≤ et.minutesSinceMidnight) (h1 : et.minutesSinceMidnight < 1440) :
    (isWeekend et.dayOfWeek = false →
      (getNextTransition et).minutesUntil =
        nearestBoundaryDistance et.minutesSinceMidnight) ∧
    (isWeekend et.dayOfWeek = true →
      ((BUSINESS_START ≤ et.minutesSinceMidnight ∧
          et.minutesSinceMidnight < OPEN_START) →
        (getNextTransition et).label = "Overnight restriction" ∧
        (getNextTransition et).minutesUntil =
          minutesUntil et.minutesSinceMidnight OVERNIGHT_START) ∧
      (¬(BUSINESS_START ≤ et.minutesSinceMidnight ∧
          et.minutesSinceMidnight < OPEN_START) →
        (getNextTransition et).minutesUntil =
          nearestBoundaryDistance et.minutesSinceMidnight)) := by
  obtain ⟨m, d, s⟩ := et
  simp only at h0 h1 ⊢
  constructor
  · intro hw
    simp only [getNextTransition, nearestBoundaryDistance, minutesUntil,
      OVERNIGHT_START, BUSINESS_START, OPEN_START, hw, Bool.false_eq_true,
      false_and, if_false, eq_self_iff_true, true_and]
    split_ifs <;> dsimp only <;> simp only [Int.min_def] <;>
      split_ifs <;> omega
  · intro hw
    constructor
    · intro hbiz
      simp only [BUSINESS_START, OPEN_START] at hbiz
      simp only [getNextTransition, minutesUntil,
        OVERNIGHT_START, BUSINESS_START, OPEN_START, hw, Bool.true_eq_false,
        false_and, if_false]
      split_ifs <;> dsimp only <;>
        first
          | exact ⟨rfl, rfl⟩
          | (exfalso ; omega)
    · intro hnot
      simp only [BUSINESS_START, OPEN_START] at hnot
      simp only [getNextTransition, nearestBoundaryDistance, minutesUntil,
        OVERNIGHT_START, BUSINESS_START, OPEN_START, hw, Bool.true_eq_false,
        false_and, if_false, eq_self_iff_true, true_and]
      split_ifs <;> dsimp only <;> simp only [Int.min_def] <;>
        split_ifs <;> omega

/-- Witness for the amended C5, on a Monday at noon. -/
theorem getNextTransition_amended_witness :
    ((0:Int) ≤ 720 ∧ (720:Int) < 1440) ∧
    (isWeekend 1 = false →
      (getNextTransition ⟨720, 1, ""⟩).minutesUntil =
        nearestBoundaryDistance 720) :=
  ⟨⟨by decide, by decide⟩,
    (getNextTransition_amended ⟨720, 1, ""⟩ (by decide) (by decide)).1⟩

/-- Shared helper: in a strictly increasing list every element is at most
the last one. -/
theorem le_getLast_of_pairwise_lt : ∀ (l : List Int),
    List.Pairwise (fun a b => a < b) l →
    ∀ (h : l ≠ []) (v : Int), v ∈ l → v ≤ l.getLast h := by
  intro l
  induction l with
  | nil => intro _ h; exact absurd rfl h
  | cons a t ih =>
    intro hp
    cases t with
    | nil =>
      intro h v hv
      simp only [List.mem_singleton] at hv
      simp [hv]
    | cons b t' =>
      intro h v hv
      rw [List.getLast_cons (by simp)]
      rcases List.mem_cons.mp hv with hv | hv
      · subst hv
        exact le_of_lt (List.rel_of_pairwise_cons hp (List.getLast_mem _))
      · exact ih (List.Pairwise.of_cons hp) (by simp) v hv

/-- Helper for C7: the scan loop of `getNextDeparture` returns `none` iff
every listed minute has passed, and any returned departure is the least
one strictly after the current minute. -/
theorem findNextDeparture_spec (cur : Int) :
    ∀ (ds : List String) (ms : List Int),
      List.Forall₂ (fun d v => toMinutes d = Except.ok (some v)) ds ms →
      List.Pairwise (fun a b => a < b) ms →
      ((findNextDeparture cur ds = Except.ok none ↔ ∀ v ∈ ms, v ≤ cur) ∧
       (∀ d, findNextDeparture cur ds = Except.ok (some d) →
         ∃ v, toMinutes d = Except.ok (some v) ∧ cur < v ∧
           ∀ w ∈ ms, cur < w → v ≤ w)) := by
  intro ds ms hp
  induction hp with
  | nil =>
    intro _
    constructor
    · simp [findNextDeparture]
    · intro d hd
      simp [findNextDeparture] at hd
  | @cons a b la lb h₁ h₂ ih =>
    intro hpw
    have hhead : ∀ w ∈ lb, b < w := fun w hw => List.rel_of_pairwise_cons hpw hw
    have ihs := ih (List.Pairwise.of_cons hpw)
    by_cases hbc : b > cur
    · have hstep : findNextDeparture cur (a :: la) = Except.ok (some a) := by
        simp [findNextDeparture, h₁, jsGT, hbc]
      constructor
      · rw [hstep]
        refine iff_of_false (by simp) ?_
        intro hall
        have := hall b (List.mem_cons_self b lb)
        omega
      · intro d hd
        rw [hstep] at hd
        simp only [Except.ok.injEq, Option.some.injEq] at hd
        subst hd
        refine ⟨b, h₁, hbc, ?_⟩
        intro w hw hcw
        rcases List.mem_cons.mp hw with hw' | hw'
        · omega
        · exact le_of_lt (hhead w hw')
    · have hstep : findNextDeparture cur (a :: la) = findNextDeparture cur la := by
        simp [findNextDeparture, h₁, jsGT, hbc]
      constructor
      · rw [hstep, ihs.1]
        constructor
        · intro hall v hv
          rcases List.mem_cons.mp hv with hv' | hv'
          · omega
          · exact hall v hv'
        · intro hall v hv
          exact hall v (List.mem_cons_of_mem _ hv)
      · intro d hd
        rw [hstep] at hd
        obtain ⟨v, hv1, hv2, hv3⟩ := ihs.2 d hd
        refine ⟨v, hv1, hv2, ?_⟩
        intro w hw hcw
        rcases List.mem_cons.mp hw with hw' | hw'
        · omega
        · exact hv3 w hw' hcw

/-- C6: `isScheduleActive` returns false when the descriptor's day is not
in the sub-schedule's day set, or when `departures` is empty; otherwise,
with `f` and `l` the minute-of-day of the first and last departures and
`tailStopOffset` the last stop's offset, the overnight-crossing case
(`l < f`) is active iff `now ≥ f ∨ now ≤ l + tailStopOffset`, and the
normal case iff `f - 5 ≤ now ≤ l + tailStopOffset`. -/
theorem isScheduleActive_spec (s : SubSchedule) (now : TimeInfo) :
    (s.daysOfWeek.contains now.dayOfWeek = false →
      isScheduleActive s now = Except.ok false) ∧
    (s.departures = [] → isScheduleActive s now = Except.ok false) ∧
    (∀ (d0 dl : String) (f l : Int),
      s.daysOfWeek.contains now.dayOfWeek = true →
      s.departures.head? = some d0 →
      s.departures.getLast? = some dl →
      toMinutes d0 = Except.ok (some f) →
      toMinutes dl = Except.ok (some l) →
      isScheduleActive s now = Except.ok (
        if l < f then
          decide (f ≤ now.minutesSinceMidnight) ||
            decide (now.minutesSinceMidnight ≤ l + tailStopOffset s)
        else
          decide (f - 5 ≤ now.minutesSinceMidnight) &&
            decide (now.minutesSinceMidnight ≤ l + tailStopOffset s))) := by
  refine ⟨?_, ?_, ?_⟩
  · intro hc
    have hc' : now.dayOfWeek ∉ s.daysOfWeek := by simpa using hc
    simp [isScheduleActive, hc']
  · intro hd
    rcases hmem : s.daysOfWeek.contains now.dayOfWeek with _ | _
    · have hc' : now.dayOfWeek ∉ s.daysOfWeek := by simpa using hmem
      simp [isScheduleActive, hc']
    · have hc' : now.dayOfWeek ∈ s.daysOfWeek := by simpa using hmem
      simp [isScheduleActive, hc', hd]
  · intro d0 dl f l hc hh hlast hf hl
    have hc' : now.dayOfWeek ∈ s.daysOfWeek := by simpa using hc
    rcases hds : s.departures with _ | ⟨a, t⟩
    · rw [hds] at hh
      simp at hh
    · rw [hds] at hh hlast
      simp only [List.head?_cons, Option.some.injEq] at hh
      subst hh
      have hge : (a :: t).getLast (by simp) = dl := by
        rw [List.getLast?_eq_getLast _ (by simp)] at hlast
        exact Option.some.inj hlast
      simp only [isScheduleActive, hds, hc', not_true, if_false, hge, hf, hl,
        jsLT, jsLE, jsAdd, jsSub]
      split_ifs <;> simp_all

/-- Witness for C6: the Wellness Pick-up sub-schedule on a Tuesday at
minute 700 (11:40, before the 5-minute grace window of the 11:52
departure) is not active. -/
theorem isScheduleActive_spec_witness :
    isScheduleActive wellnessPickup ⟨700, 2⟩ = Except.ok false := by
  have h := (isScheduleActive_spec wellnessPickup ⟨700, 2⟩).2.2
    "11:52 AM" "11:52 AM" 712 712 rfl rfl rfl rfl rfl
  simpa [tailStopOffset, wellnessPickup] using h

/-- C7: for a sub-schedule whose departures parse to a strictly increasing
minute-of-day list (no wraparound), `getNextDeparture` at minute `m`
returns none iff every departure is at or before `m` (equivalently, iff
`m` is at or past the last departure's minute), and any returned
departure is a listed one whose minute strictly exceeds `m` and is least
among those. -/
theorem getNextDeparture_monotone (s : SubSchedule) (now : TimeInfo)
    (ms : List Int)
    (hp : List.Forall₂ (fun d v => toMinutes d = Except.ok (some v))
      s.departures ms)
    (hs : List.Pairwise (fun a b => a < b) ms) :
    (getNextDeparture s now = Except.ok none ↔
      ∀ v ∈ ms, v ≤ now.minutesSinceMidnight) ∧
    (∀ d, getNextDeparture s now = Except.ok (some d) →
      ∃ v, toMinutes d = Except.ok (some v) ∧ now.minutesSinceMidnight < v ∧
        ∀ w ∈ ms, now.minutesSinceMidnight < w → v ≤ w) ∧
    (∀ h : ms ≠ [],
      getNextDeparture s now = Except.ok none ↔
        ms.getLast (by assumption) ≤ now.minutesSinceMidnight) := by
  have base := findNextDeparture_spec now.minutesSinceMidnight s.departures
    ms hp hs
  simp only [getNextDeparture]
  refine ⟨base.1, base.2, ?_⟩
  intro h
  rw [base.1]
  constructor
  · intro hall
    exact hall _ (List.getLast_mem h)
  · intro hlast v hv
    exact le_trans (le_getLast_of_pairwise_lt ms hs h v hv) hlast

/-- Witness for C7: the Wellness Pick-up single-departure schedule
(`["11:52 AM"]`, minute 712) at minute 715 yields no next departure
(Scenario C's second half). -/
theorem getNextDeparture_monotone_witness :
    getNextDeparture wellnessPickup ⟨715, 2⟩ = Except.ok none := by
  have h := (getNextDeparture_monotone wellnessPickup ⟨715, 2⟩ [712]
    (List.Forall₂.cons (by rfl) List.Forall₂.nil) (by simp)).1
  rw [h]
  intro v hv
  simp only [List.mem_singleton] at hv
  subst hv
  show (712 : Int) ≤ 715
  norm_num

/-- C8: evaluating `parseShapePoints` on an encoded string whose first
pair has a non-numeric latitude shows the malformed pair is NOT rejected
or skipped — it stays in the output with a `NaN` (`none`) coordinate, and
the output still has one entry per pair. -/
theorem parseShapePoints_keeps_nan :
    (parseShapePoints "x,1;2,3").map
        (fun p => (p.1.isSome, p.2.isSome)) = [(false, true), (true, true)] ∧
    (parseShapePoints "x,1;2,3").length = 2 :=
  ⟨rfl, rfl⟩

/-- C9: evaluating the departure-time parser on the malformed string
`"12:00 XM"` (not valid 12-hour format: the meridiem is neither AM nor
PM) shows it silently yields minute-of-day 0 — midnight — with no
error. -/
theorem parseTime_silent_midnight :
    valid12HourFormat "12:00 XM" = false ∧
    toMinutes "12:00 XM" = Except.ok (some 0) :=
  ⟨rfl, rfl⟩

/-- C10: `getLotStatus` pairs color and label consistently — green always
carries "Available", yellow "Available soon", orange "Unavailable soon",
red "Not available". -/
theorem getLotStatus_label_consistent (lot : ParkingLot) (et : EasternTime) :
    (getLotStatus lot et).label = labelFor (getLotStatus lot et).color := by
  simp only [getLotStatus]
  split_ifs <;> rfl

end Navgate
